import Mathlib

/-!
Shallow embedding of the VLHoldings finance reporting API
(`src/app/api/finance/summary/route.ts`: the single-period summary route and
the monthly history route). Pure functions model the aggregation arithmetic,
the period resolver built on the JavaScript `Date` constructor, the category
grouping maps, the bearer-token authentication check, and `parseInt`-based
query-parameter handling. Database reads are modelled as a list of rows; the
`WHERE createdAt BETWEEN periodStart AND periodEnd` filter is an explicit
list filter.
-/

namespace VLHoldings

/-- Calendar-local date-time as produced by the JavaScript `Date` constructor
calls in the route (year, 1-based month, day, hour, minute, second).
Milliseconds are never set by the route and are omitted. -/
structure DateTime where
  year : Int
  month : Int
  day : Int
  hour : Int
  minute : Int
  second : Int
deriving Repr, DecidableEq

/-- Gregorian leap-year rule, as implemented by the JavaScript `Date`
runtime that the route's day-0-of-next-month arithmetic relies on. -/
def isLeapYear (y : Int) : Bool :=
  (y % 4 == 0 && y % 100 != 0) || (y % 400 == 0)

/-- Number of days in a (1-based) month of a given year, per the Gregorian
calendar used by the JavaScript `Date` runtime. -/
def daysInMonth (y : Int) (m : Int) : Int :=
  if m = 2 then (if isLeapYear y then 29 else 28)
  else if m = 4 ∨ m = 6 ∨ m = 9 ∨ m = 11 then 30
  else 31

/-- Models the JavaScript constructor `new Date(y, mIdx, d, hh, mi, ss)` as
used by the route: the 0-based month index `mIdx` is normalized into the
year by floor division (`Int` division `/` and `%` are floor
division/nonnegative remainder for the positive divisor 12, matching
ECMAScript `MakeDay`), and day `d = 0` denotes the last day of the previous
month. The route only ever passes `d = 0` or an in-range day (1 or 31). -/
def jsDate (y mIdx d hh mi ss : Int) : DateTime :=
  let ym := y + mIdx / 12
  let m1 := mIdx % 12 + 1
  if d = 0 then
    if m1 = 1 then ⟨ym - 1, 12, 31, hh, mi, ss⟩
    else ⟨ym, m1 - 1, daysInMonth ym (m1 - 1), hh, mi, ss⟩
  else ⟨ym, m1, d, hh, mi, ss⟩

/-- Chronological order on calendar date-times: lexicographic on the
calendar fields, which agrees with timestamp order for normalized dates.
Models the `gte`/`lte` timestamp comparisons of the database query. -/
def DateTime.leB (a b : DateTime) : Bool :=
  if a.year = b.year then
    if a.month = b.month then
      if a.day = b.day then
        if a.hour = b.hour then
          if a.minute = b.minute then decide (a.second ≤ b.second)
          else decide (a.minute < b.minute)
        else decide (a.hour < b.hour)
      else decide (a.day < b.day)
    else decide (a.month < b.month)
  else decide (a.year < b.year)

/-- A study-card row as the aggregation code reads it: optional free-text
`category`, optional monetary `estimatedCost`, completion flag, creation
timestamp. Fields the aggregator never touches are omitted. -/
structure StudyCard where
  category : Option String
  estimatedCost : Option Int
  isCompleted : Bool
  createdAt : DateTime
deriving Repr, DecidableEq

/-- `card.estimatedCost ?? 0`. -/
def costOf (c : StudyCard) : Int := c.estimatedCost.getD 0

/-- `card.category ?? "Uncategorized"`: the nullish-coalescing operator
substitutes only for null/undefined, not for the empty string. -/
def catKey (c : StudyCard) : String := c.category.getD "Uncategorized"

/-- `periodCards.reduce((sum, card) => sum + (card.estimatedCost ?? 0), 0)`. -/
def totalExpenses (rows : List StudyCard) : Int :=
  rows.foldl (fun s c => s + costOf c) 0

/-- `periodCards.filter((c) => c.isCompleted)`. -/
def completedCards (rows : List StudyCard) : List StudyCard :=
  rows.filter (fun c => c.isCompleted)

/-- `completedCards.reduce((sum, card) => sum + (card.estimatedCost ?? 0), 0)`. -/
def completedValue (rows : List StudyCard) : Int :=
  (completedCards rows).foldl (fun s c => s + costOf c) 0

/-- `const totalRevenue = completedValue`. -/
def totalRevenue (rows : List StudyCard) : Int := completedValue rows

/-- `const netProfit = totalRevenue - totalExpenses`. -/
def netProfit (rows : List StudyCard) : Int := totalRevenue rows - totalExpenses rows

/-- `const cashInflow = completedValue`. -/
def cashInflow (rows : List StudyCard) : Int := completedValue rows

/-- `const cashOutflow = totalExpenses`. -/
def cashOutflow (rows : List StudyCard) : Int := totalExpenses rows

/-- `const netCashFlow = cashInflow - cashOutflow`. -/
def netCashFlow (rows : List StudyCard) : Int := cashInflow rows - cashOutflow rows

/-- One `{name, amount, count}` entry of a category breakdown. -/
structure CategoryEntry where
  name : String
  amount : Int
  count : Nat
deriving Repr, DecidableEq

/-- One step of the category-map loop: `categoryMap.get(cat) ?? {0,0}`,
add the cost, `categoryMap.set(cat, existing)`. A JavaScript `Map` keeps an
existing key at its position and appends a new key at the end, which for an
insertion-ordered association list is update-in-place or append. -/
def addToCategoryMap (m : List CategoryEntry) (cat : String) (cost : Int) :
    List CategoryEntry :=
  if m.any (fun e => e.name == cat) then
    m.map (fun e => if e.name = cat then ⟨e.name, e.amount + cost, e.count + 1⟩ else e)
  else m ++ [⟨cat, cost, 1⟩]

/-- The category-breakdown loop followed by `Array.from(map.entries()).map(...)`:
fold the rows into an insertion-ordered map keyed by
`card.category ?? "Uncategorized"`, accumulating `estimatedCost ?? 0` and a
count. -/
def buildCategoryMap (rows : List StudyCard) : List CategoryEntry :=
  rows.foldl (fun m c => addToCategoryMap m (catKey c) (costOf c)) []

/-- `expenseCategories`: the breakdown over ALL period rows. -/
def expenseCategories (rows : List StudyCard) : List CategoryEntry :=
  buildCategoryMap rows

/-- `revenueCategories`: the same breakdown restricted to completed rows. -/
def revenueCategories (rows : List StudyCard) : List CategoryEntry :=
  buildCategoryMap (completedCards rows)

/-- The same fold as `buildCategoryMap`, over bare (key, cost) pairs;
used to state and prove the grouping lemmas once. -/
def groupPairs (ps : List (String × Int)) : List CategoryEntry :=
  ps.foldl (fun m p => addToCategoryMap m p.1 p.2) []

/-- The distinct keys of a list, in order of first occurrence. -/
def firstOccKeys (l : List String) : List String :=
  l.foldl (fun acc k => if k ∈ acc then acc else acc ++ [k]) []

/-- `Math.ceil(a / b)` for integers and positive `b`, as in
`Math.ceil(month / 3)`. -/
def ceilDiv (a b : Int) : Int := -((-a) / b)

/-- The period-boundary if-chain of the summary route: yearly is Jan 1 to
Dec 31 23:59:59; quarterly is the first day of month `(quarter-1)*3+1` to
day 0 of month `quarter*3` (i.e. its last day) at 23:59:59; anything else is
the monthly branch, first day of `month` to day 0 of the next month at
23:59:59. -/
def resolvePeriod (periodType : String) (year month : Int) : DateTime × DateTime :=
  if periodType = "yearly" then
    (jsDate year 0 1 0 0 0, jsDate year 11 31 23 59 59)
  else if periodType = "quarterly" then
    let quarter := ceilDiv month 3
    (jsDate year ((quarter - 1) * 3) 1 0 0 0, jsDate year (quarter * 3) 0 23 59 59)
  else
    (jsDate year (month - 1) 1 0 0 0, jsDate year month 0 23 59 59)

/-- `totalItems > 0 ? Math.round((totalCompleted / totalItems) * 100) : 0`,
with JavaScript numbers modelled as rationals; `round` is `⌊x + 1/2⌋`,
exactly the `Math.round` rule of rounding half toward positive infinity. -/
def completionRate (totalCompleted totalItems : Nat) : Int :=
  if 0 < totalItems then round (((totalCompleted : ℚ) / (totalItems : ℚ)) * 100) else 0

/-- The completion rate as the route derives it from the whole table:
the two global count queries (`count(*)` and `count(*) where isCompleted`)
modelled as list lengths. -/
def completionRateOfTable (table : List StudyCard) : Int :=
  completionRate (table.filter (fun c => c.isCompleted)).length table.length

/-- The JSON body of the single-period summary response (the fields the
claims are about). -/
structure FinanceSummary where
  periodStart : DateTime
  periodEnd : DateTime
  totalRevenue : Int
  totalExpenses : Int
  netProfit : Int
  cashInflow : Int
  cashOutflow : Int
  netCashFlow : Int
  revenueCategories : List CategoryEntry
  expenseCategories : List CategoryEntry
  totalItems : Nat
  totalCompleted : Nat
  periodItemCount : Nat
  periodCompletedCount : Nat
  completionRate : Int
deriving Repr, DecidableEq

/-- The try-block of the summary route as a pure function of the table:
resolve the period, filter the rows whose `createdAt` lies in the inclusive
interval, aggregate, group, and attach the whole-table counts. -/
def buildSummary (periodType : String) (year month : Int)
    (table : List StudyCard) : FinanceSummary :=
  let pr := resolvePeriod periodType year month
  let periodCards := table.filter
    (fun c => DateTime.leB pr.1 c.createdAt && DateTime.leB c.createdAt pr.2)
  { periodStart := pr.1
    periodEnd := pr.2
    totalRevenue := totalRevenue periodCards
    totalExpenses := totalExpenses periodCards
    netProfit := netProfit periodCards
    cashInflow := cashInflow periodCards
    cashOutflow := cashOutflow periodCards
    netCashFlow := netCashFlow periodCards
    revenueCategories := revenueCategories periodCards
    expenseCategories := expenseCategories periodCards
    totalItems := table.length
    totalCompleted := (table.filter (fun c => c.isCompleted)).length
    periodItemCount := periodCards.length
    periodCompletedCount := (completedCards periodCards).length
    completionRate := completionRateOfTable table }

/-- `new Date(now.getFullYear(), now.getMonth() - i, 1)` of the history
loop, normalized: the (year, 0-based month index) that is `i` months before
the current (year, 0-based month index). -/
def monthsAgo (nowY nowM : Int) (i : Nat) : Int × Int :=
  (nowY + (nowM - i) / 12, (nowM - i) % 12)

/-- One element of the history route's `summaries` array. -/
structure HistorySummary where
  periodStart : DateTime
  periodEnd : DateTime
  totalRevenue : Int
  totalExpenses : Int
  netProfit : Int
  cashInflow : Int
  cashOutflow : Int
  netCashFlow : Int
  itemCount : Nat
  completedCount : Nat
  expenseCategories : List CategoryEntry
deriving Repr, DecidableEq

/-- One iteration of the history loop for a normalized target
(year, 0-based month index): `periodStart = new Date(ty, tm, 1)`,
`periodEnd = new Date(ty, tm + 1, 0, 23, 59, 59)`, then the same filter,
reductions and category map as the summary route. -/
def buildMonthSummary (table : List StudyCard) (ty tmIdx : Int) : HistorySummary :=
  let ps := jsDate ty tmIdx 1 0 0 0
  let pe := jsDate ty (tmIdx + 1) 0 23 59 59
  let periodCards := table.filter
    (fun c => DateTime.leB ps c.createdAt && DateTime.leB c.createdAt pe)
  { periodStart := ps
    periodEnd := pe
    totalRevenue := totalRevenue periodCards
    totalExpenses := totalExpenses periodCards
    netProfit := totalRevenue periodCards - totalExpenses periodCards
    cashInflow := completedValue periodCards
    cashOutflow := totalExpenses periodCards
    netCashFlow := completedValue periodCards - totalExpenses periodCards
    itemCount := periodCards.length
    completedCount := (completedCards periodCards).length
    expenseCategories := buildCategoryMap periodCards }

/-- The history loop `for (let i = 0; i < monthsCount; i++)`, given the
number of iterations actually performed. -/
def buildHistory (table : List StudyCard) (nowY nowM : Int) (n : Nat) :
    List HistorySummary :=
  (List.range n).map (fun i =>
    buildMonthSummary table (monthsAgo nowY nowM i).1 (monthsAgo nowY nowM i).2)

/-- `authHeader?.startsWith("Bearer ") ? authHeader.slice(7) : null`,
with the string operations spelled out over the character list. -/
def providedKey (authHeader : Option String) : Option String :=
  match authHeader with
  | none => none
  | some h =>
    if (String.toList "Bearer ").isPrefixOf h.toList then
      some (String.mk (h.toList.drop 7))
    else none

/-- Outcome of an endpoint call: the 401 body with its fixed error message,
or the 200 body. -/
inductive ApiResult (α : Type) where
  | unauthorized (msg : String) : ApiResult α
  | ok (body : α) : ApiResult α
deriving Repr, DecidableEq

/-- HTTP status code of a result. -/
def statusOf {α : Type} : ApiResult α → Nat
  | ApiResult.unauthorized _ => 401
  | ApiResult.ok _ => 200

/-- The summary route: the API-key guard (`if (apiKey)` is a JavaScript
truthiness test, so an absent or empty key skips authentication entirely;
otherwise any header not yielding exactly the key gets the fixed 401),
then the pure summary body. -/
def reportEndpoint (apiKey : Option String) (authHeader : Option String)
    (periodType : String) (year month : Int) (table : List StudyCard) :
    ApiResult FinanceSummary :=
  if apiKey.getD "" ≠ "" ∧ providedKey authHeader ≠ some (apiKey.getD "") then
    ApiResult.unauthorized "Unauthorized. Invalid or missing API key."
  else
    ApiResult.ok (buildSummary periodType year month table)

/-- Longest leading run of decimal digits of a character list, folded into
a number; the accumulator is the value of the digits already consumed. -/
def takeDecDigits : List Char → Nat → Nat
  | [], acc => acc
  | c :: cs, acc => if c.isDigit then takeDecDigits cs (acc * 10 + (c.toNat - 48)) else acc

/-- Decimal digit run at the front of a character list; `none` when the
first character is not a digit (JavaScript `parseInt` returns NaN then). -/
def parseDecDigits : List Char → Option Nat
  | [] => none
  | c :: cs => if c.isDigit then some (takeDecDigits cs (c.toNat - 48)) else none

/-- Value of a hexadecimal digit, if the character is one. -/
def hexDigitVal (c : Char) : Option Nat :=
  if c.isDigit then some (c.toNat - 48)
  else if 'a' ≤ c ∧ c ≤ 'f' then some (c.toNat - 87)
  else if 'A' ≤ c ∧ c ≤ 'F' then some (c.toNat - 55)
  else none

/-- Hexadecimal digit run at the front of a character list, with the
accumulated value of the digits already consumed. -/
def takeHexDigits : List Char → Nat → Nat
  | [], acc => acc
  | c :: cs, acc =>
    match hexDigitVal c with
    | some v => takeHexDigits cs (acc * 16 + v)
    | none => acc

/-- Hexadecimal digit run at the front of a character list; `none` when the
first character is not a hexadecimal digit. -/
def parseHexDigits : List Char → Option Nat
  | [] => none
  | c :: cs =>
    match hexDigitVal c with
    | some v => some (takeHexDigits cs v)
    | none => none

/-- JavaScript `parseInt(s)` with the radix argument omitted: skip leading
whitespace, read an optional sign, switch to base 16 after a `0x`/`0X`
prefix, read the longest digit run and ignore everything after it; `none`
stands for NaN (no digits at all). -/
def parseIntJS (s : String) : Option Int :=
  let cs := s.toList.dropWhile (fun c => c.isWhitespace)
  match cs with
  | '-' :: rest => (parseIntBody rest).map (fun n => -(n : Int))
  | '+' :: rest => (parseIntBody rest).map (fun n => (n : Int))
  | _ => (parseIntBody cs).map (fun n => (n : Int))
where
  parseIntBody : List Char → Option Nat
    | '0' :: 'x' :: rest => parseHexDigits rest
    | '0' :: 'X' :: rest => parseHexDigits rest
    | cs2 => parseDecDigits cs2

/-- `Math.min(parseInt(url.searchParams.get("months") ?? "12"), 24)` and
the loop guard `i < monthsCount`: `Math.min(NaN, 24)` is NaN and a loop
comparison against NaN is false, so an unparsable `months` yields zero
iterations; a negative count also yields zero iterations. -/
def histCount (monthsParam : Option String) : Nat :=
  match (parseIntJS (monthsParam.getD "12")).map (fun n => min n 24) with
  | none => 0
  | some n => n.toNat

/-- The clamp `Math.min(n, 24)` applied to an already-parsed months count,
followed by the loop guard (a non-positive count runs zero iterations). -/
def clampMonths (n : Int) : Nat := (min n 24).toNat

/-- `parseInt(url.searchParams.get("year") ?? String(now.getFullYear()))`:
the current-year default is substituted only when the parameter is absent;
`none` stands for NaN. -/
def yearFromParam (p : Option String) (currentYear : Int) : Option Int :=
  parseIntJS (p.getD (toString currentYear))

/-- The history route: the same API-key guard, then the month loop. The
current date enters as the normalized (year, 0-based month index) pair that
`now.getFullYear()`/`now.getMonth()` return. -/
def historyEndpoint (apiKey authHeader monthsParam : Option String)
    (table : List StudyCard) (nowY nowM : Int) : ApiResult (List HistorySummary) :=
  if apiKey.getD "" ≠ "" ∧ providedKey authHeader ≠ some (apiKey.getD "") then
    ApiResult.unauthorized "Unauthorized. Invalid or missing API key."
  else
    ApiResult.ok (buildHistory table nowY nowM (histCount monthsParam))

/-- Number of summaries in a 200 history response (0 for a 401). -/
def historyBodyLength (r : ApiResult (List HistorySummary)) : Nat :=
  match r with
  | ApiResult.ok l => l.length
  | ApiResult.unauthorized _ => 0

/-- The two rows of the spec's worked example: cost 100 not completed,
created 2024-03-15; cost 50 completed, created 2024-03-20. -/
def exampleTable : List StudyCard :=
  [⟨none, some 100, false, ⟨2024, 3, 15, 10, 0, 0⟩⟩,
   ⟨none, some 50, true, ⟨2024, 3, 20, 10, 0, 0⟩⟩]

/-! ## Helper lemmas -/

theorem foldl_add_costOf (l : List StudyCard) (a : Int) :
    l.foldl (fun s c => s + costOf c) a = a + (l.map costOf).sum := by
  induction l generalizing a with
  | nil => simp
  | cons c l ih => simp [ih, add_assoc]

theorem totalExpenses_eq_sum (rows : List StudyCard) :
    totalExpenses rows = (rows.map costOf).sum := by
  simpa using foldl_add_costOf rows 0

theorem completedValue_eq_sum (rows : List StudyCard) :
    completedValue rows = ((completedCards rows).map costOf).sum := by
  simpa using foldl_add_costOf (completedCards rows) 0

theorem sum_map_filter_le (l : List StudyCard) (p : StudyCard → Bool)
    (h : ∀ c ∈ l, 0 ≤ costOf c) :
    ((l.filter p).map costOf).sum ≤ (l.map costOf).sum := by
  induction l with
  | nil => simp
  | cons c l ih =>
    have h0 : 0 ≤ costOf c := h c (by simp)
    have ih2 := ih (fun x hx => h x (by simp [hx]))
    by_cases hp : p c
    · simpa [List.filter_cons, hp] using add_le_add_left ih2 (costOf c)
    · simpa [List.filter_cons, hp] using le_trans ih2 (le_add_of_nonneg_left h0)

theorem jsDate_inrange (y mIdx d hh mi ss : Int) (h0 : 0 ≤ mIdx) (h1 : mIdx ≤ 11)
    (hd : d ≠ 0) :
    jsDate y mIdx d hh mi ss = ⟨y, mIdx + 1, d, hh, mi, ss⟩ := by
  have he1 : mIdx / 12 = 0 := by omega
  have he2 : mIdx % 12 = mIdx := by omega
  simp only [jsDate, he1, he2, add_zero, if_neg hd]

theorem jsDate_day0_mid (y mIdx hh mi ss : Int) (h0 : 1 ≤ mIdx) (h1 : mIdx ≤ 11) :
    jsDate y mIdx 0 hh mi ss = ⟨y, mIdx, daysInMonth y mIdx, hh, mi, ss⟩ := by
  have he1 : mIdx / 12 = 0 := by omega
  have he2 : mIdx % 12 = mIdx := by omega
  have hm1 : ¬(mIdx + 1 = 1) := by omega
  simp only [jsDate, he1, he2, add_zero, if_pos rfl, if_true, if_neg hm1,
    add_sub_cancel_right]

theorem jsDate_day0_dec (y hh mi ss : Int) :
    jsDate y 12 0 hh mi ss = ⟨y, 12, 31, hh, mi, ss⟩ := by
  have he1 : (12 : Int) / 12 = 1 := by decide
  have he2 : (12 : Int) % 12 = 0 := by decide
  simp only [jsDate, he1, he2, zero_add, if_pos rfl, if_true, add_sub_cancel_right]

theorem daysInMonth_ge (y m : Int) : 28 ≤ daysInMonth y m := by
  unfold daysInMonth
  split
  · split <;> norm_num
  · split <;> norm_num

theorem daysInMonth_twelve (y : Int) : daysInMonth y 12 = 31 := by
  norm_num [daysInMonth]

theorem leB_of_fields (a b : DateTime) (hy : a.year = b.year)
    (hm : a.month < b.month ∨ (a.month = b.month ∧ a.day < b.day)) :
    DateTime.leB a b = true := by
  unfold DateTime.leB
  rw [if_pos hy]
  rcases hm with hm | ⟨hm, hd⟩
  · rw [if_neg (by omega : ¬a.month = b.month)]
    simp [hm]
  · rw [if_pos hm, if_neg (by omega : ¬a.day = b.day)]
    simp [hd]

theorem resolvePeriod_yearly (year month : Int) :
    resolvePeriod "yearly" year month
      = (⟨year, 1, 1, 0, 0, 0⟩, ⟨year, 12, 31, 23, 59, 59⟩) := by
  unfold resolvePeriod
  rw [if_pos rfl]
  rw [jsDate_inrange year 0 1 0 0 0 (by norm_num) (by norm_num) (by norm_num)]
  rw [jsDate_inrange year 11 31 23 59 59 (by norm_num) (by norm_num) (by norm_num)]
  norm_num

theorem resolvePeriod_monthly (year month : Int) (h1 : 1 ≤ month) (h2 : month ≤ 12) :
    resolvePeriod "monthly" year month
      = (⟨year, month, 1, 0, 0, 0⟩,
         ⟨year, month, daysInMonth year month, 23, 59, 59⟩) := by
  unfold resolvePeriod
  rw [if_neg (by decide : ¬("monthly" = "yearly")),
      if_neg (by decide : ¬("monthly" = "quarterly"))]
  rw [jsDate_inrange year (month - 1) 1 0 0 0 (by omega) (by omega) (by norm_num)]
  have hs : month - 1 + 1 = month := by omega
  rw [hs]
  by_cases hm : month = 12
  · subst hm
    rw [jsDate_day0_dec, daysInMonth_twelve]
  · rw [jsDate_day0_mid year month 23 59 59 (by omega) (by omega)]

theorem ceilDiv_three_bounds (month : Int) (h1 : 1 ≤ month) (h2 : month ≤ 12) :
    1 ≤ ceilDiv month 3 ∧ ceilDiv month 3 ≤ 4 := by
  unfold ceilDiv
  omega

theorem resolvePeriod_quarterly (year month : Int) (h1 : 1 ≤ month) (h2 : month ≤ 12) :
    resolvePeriod "quarterly" year month
      = (⟨year, (ceilDiv month 3 - 1) * 3 + 1, 1, 0, 0, 0⟩,
         ⟨year, ceilDiv month 3 * 3,
          daysInMonth year (ceilDiv month 3 * 3), 23, 59, 59⟩) := by
  obtain ⟨hq1, hq2⟩ := ceilDiv_three_bounds month h1 h2
  unfold resolvePeriod
  rw [if_neg (by decide : ¬("quarterly" = "yearly")), if_pos rfl]
  simp only
  rw [jsDate_inrange year ((ceilDiv month 3 - 1) * 3) 1 0 0 0 (by omega) (by omega)
      (by norm_num)]
  have hs : (ceilDiv month 3 - 1) * 3 + 1 = (ceilDiv month 3 - 1) * 3 + 1 := rfl
  by_cases hm : ceilDiv month 3 = 4
  · rw [hm]
    norm_num
    rw [jsDate_day0_dec, daysInMonth_twelve]
  · rw [jsDate_day0_mid year (ceilDiv month 3 * 3) 23 59 59 (by omega) (by omega)]

theorem groupPairs_snoc (ps : List (String × Int)) (p : String × Int) :
    groupPairs (ps ++ [p]) = addToCategoryMap (groupPairs ps) p.1 p.2 := by
  unfold groupPairs
  rw [List.foldl_append]
  rfl

theorem firstOccKeys_snoc (l : List String) (k : String) :
    firstOccKeys (l ++ [k]) =
      if k ∈ firstOccKeys l then firstOccKeys l else firstOccKeys l ++ [k] := by
  unfold firstOccKeys
  rw [List.foldl_append]
  rfl

theorem mem_firstOccKeys (x : String) (l : List String) :
    x ∈ firstOccKeys l ↔ x ∈ l := by
  induction l using List.reverseRecOn with
  | nil => simp [firstOccKeys]
  | append_singleton l k ih =>
    rw [firstOccKeys_snoc]
    by_cases hk : k ∈ firstOccKeys l
    · rw [if_pos hk]
      simp only [List.mem_append, List.mem_singleton]
      constructor
      · intro h; exact Or.inl (ih.mp h)
      · rintro (h | h)
        · exact ih.mpr h
        · subst h; exact hk
    · rw [if_neg hk]; simp [ih]

theorem firstOccKeys_nodup (l : List String) : (firstOccKeys l).Nodup := by
  induction l using List.reverseRecOn with
  | nil => simp [firstOccKeys]
  | append_singleton l k ih =>
    rw [firstOccKeys_snoc]
    by_cases hk : k ∈ firstOccKeys l
    · rw [if_pos hk]; exact ih
    · rw [if_neg hk]; simp [List.nodup_append, ih, hk]

theorem any_name_iff (m : List CategoryEntry) (k : String) :
    (m.any (fun e => e.name == k) = true) ↔ k ∈ m.map (fun e => e.name) := by
  simp only [List.any_eq_true, beq_iff_eq, List.mem_map]

theorem update_name (k : String) (v : Int) (e : CategoryEntry) :
    (if e.name = k then (⟨e.name, e.amount + v, e.count + 1⟩ : CategoryEntry)
     else e).name = e.name := by
  by_cases h : e.name = k <;> simp [h]

theorem map_update_eq_self (G : List CategoryEntry) (k : String) (v : Int)
    (hnot : ∀ e ∈ G, e.name ≠ k) :
    G.map (fun e => if e.name = k then
        (⟨e.name, e.amount + v, e.count + 1⟩ : CategoryEntry) else e) = G := by
  induction G with
  | nil => rfl
  | cons e G ih =>
    have h1 : e.name ≠ k := hnot e (by simp)
    simp only [List.map_cons, if_neg h1, List.cons.injEq, true_and]
    exact ih (fun x hx => hnot x (by simp [hx]))

theorem amount_sum_update (G : List CategoryEntry) (k : String) (v : Int)
    (hnd : (G.map (fun e => e.name)).Nodup)
    (hmem : G.any (fun e => e.name == k) = true) :
    ((G.map (fun e => if e.name = k then
        (⟨e.name, e.amount + v, e.count + 1⟩ : CategoryEntry) else e)).map
      (fun e => e.amount)).sum
      = ((G.map (fun e => e.amount)).sum) + v := by
  induction G with
  | nil => simp at hmem
  | cons e G ih =>
    simp only [List.map_cons, List.nodup_cons] at hnd
    obtain ⟨hn1, hn2⟩ := hnd
    by_cases h : e.name = k
    · have hothers : ∀ x ∈ G, x.name ≠ k := by
        intro x hx hc
        exact hn1 (by rw [h, ← hc]; exact List.mem_map_of_mem _ hx)
      rw [List.map_cons, if_pos h, map_update_eq_self G k v hothers]
      simp only [List.map_cons, List.sum_cons]
      ring
    · have hmem2 : G.any (fun x => x.name == k) = true := by
        rcases List.any_eq_true.mp hmem with ⟨x, hx, hxk⟩
        rcases List.mem_cons.mp hx with rfl | hx2
        · exact absurd (beq_iff_eq.mp hxk) h
        · exact List.any_eq_true.mpr ⟨x, hx2, hxk⟩
      rw [List.map_cons, if_neg h]
      simp only [List.map_cons, List.sum_cons, ih hn2 hmem2]
      ring

theorem count_sum_update (G : List CategoryEntry) (k : String) (v : Int)
    (hnd : (G.map (fun e => e.name)).Nodup)
    (hmem : G.any (fun e => e.name == k) = true) :
    ((G.map (fun e => if e.name = k then
        (⟨e.name, e.amount + v, e.count + 1⟩ : CategoryEntry) else e)).map
      (fun e => e.count)).sum
      = ((G.map (fun e => e.count)).sum) + 1 := by
  induction G with
  | nil => simp at hmem
  | cons e G ih =>
    simp only [List.map_cons, List.nodup_cons] at hnd
    obtain ⟨hn1, hn2⟩ := hnd
    by_cases h : e.name = k
    · have hothers : ∀ x ∈ G, x.name ≠ k := by
        intro x hx hc
        exact hn1 (by rw [h, ← hc]; exact List.mem_map_of_mem _ hx)
      rw [List.map_cons, if_pos h, map_update_eq_self G k v hothers]
      simp only [List.map_cons, List.sum_cons]
      omega
    · have hmem2 : G.any (fun x => x.name == k) = true := by
        rcases List.any_eq_true.mp hmem with ⟨x, hx, hxk⟩
        rcases List.mem_cons.mp hx with rfl | hx2
        · exact absurd (beq_iff_eq.mp hxk) h
        · exact List.any_eq_true.mpr ⟨x, hx2, hxk⟩
      rw [List.map_cons, if_neg h]
      simp only [List.map_cons, List.sum_cons, ih hn2 hmem2]
      omega

theorem groupPairs_names (ps : List (String × Int)) :
    (groupPairs ps).map (fun e => e.name) = firstOccKeys (ps.map Prod.fst) := by
  induction ps using List.reverseRecOn with
  | nil => simp [groupPairs, firstOccKeys]
  | append_singleton ps p ih =>
    rw [groupPairs_snoc, List.map_append, List.map_singleton, firstOccKeys_snoc]
    unfold addToCategoryMap
    by_cases hk : (groupPairs ps).any (fun e => e.name == p.1)
    · rw [if_pos hk]
      have hmem : p.1 ∈ firstOccKeys (ps.map Prod.fst) := by
        rw [← ih]; exact (any_name_iff _ _).mp hk
      rw [if_pos hmem, ← ih, List.map_map]
      exact List.map_congr_left (fun e _ => update_name p.1 p.2 e)
    · rw [if_neg hk]
      have hmem : p.1 ∉ firstOccKeys (ps.map Prod.fst) := by
        rw [← ih]; intro hc; exact hk ((any_name_iff _ _).mpr hc)
      rw [if_neg hmem, ← ih, List.map_append, List.map_singleton]

theorem groupPairs_names_nodup (ps : List (String × Int)) :
    ((groupPairs ps).map (fun e => e.name)).Nodup := by
  rw [groupPairs_names]; exact firstOccKeys_nodup _

theorem groupPairs_entry (ps : List (String × Int)) :
    ∀ e ∈ groupPairs ps,
      e.amount = ((ps.filter (fun p => p.1 == e.name)).map Prod.snd).sum
      ∧ e.count = (ps.filter (fun p => p.1 == e.name)).length := by
  induction ps using List.reverseRecOn with
  | nil => simp [groupPairs]
  | append_singleton ps p ih =>
    intro e he
    rw [groupPairs_snoc] at he
    unfold addToCategoryMap at he
    by_cases hk : (groupPairs ps).any (fun x => x.name == p.1)
    · rw [if_pos hk] at he
      rcases List.mem_map.mp he with ⟨e0, he0, heq⟩
      obtain ⟨ha, hc⟩ := ih e0 he0
      by_cases hn : e0.name = p.1
      · rw [if_pos hn] at heq
        subst heq
        have hb : (p.1 == e0.name) = true := beq_iff_eq.mpr hn.symm
        constructor
        · simp only [List.filter_append, List.map_append, List.sum_append]
          rw [ha]
          simp [List.filter_cons, hb]
        · simp only [List.filter_append, List.length_append]
          rw [hc]
          simp [List.filter_cons, hb]
      · rw [if_neg hn] at heq
        subst heq
        have hb : (p.1 == e0.name) = false := by
          simp only [beq_eq_false_iff_ne]
          exact fun h2 => hn h2.symm
        constructor
        · simp only [List.filter_append, List.map_append, List.sum_append]
          rw [ha]
          simp [List.filter_cons, hb]
        · simp only [List.filter_append, List.length_append]
          rw [hc]
          simp [List.filter_cons, hb]
    · rw [if_neg hk] at he
      rcases List.mem_append.mp he with h1 | h1
      · have hn : e.name ≠ p.1 := by
          intro hc
          exact hk (List.any_eq_true.mpr ⟨e, h1, by simp [hc]⟩)
        have hb : (p.1 == e.name) = false := by
          simp only [beq_eq_false_iff_ne]
          exact fun h2 => hn h2.symm
        obtain ⟨ha, hc⟩ := ih e h1
        constructor
        · simp only [List.filter_append, List.map_append, List.sum_append]
          rw [ha]
          simp [List.filter_cons, hb]
        · simp only [List.filter_append, List.length_append]
          rw [hc]
          simp [List.filter_cons, hb]
      · simp only [List.mem_singleton] at h1
        subst h1
        have hnone : ps.filter (fun q => q.1 == p.1) = [] := by
          rw [List.filter_eq_nil_iff]
          intro q hq hqc
          have h2 : p.1 ∈ (groupPairs ps).map (fun e => e.name) := by
            rw [groupPairs_names, mem_firstOccKeys]
            exact (beq_iff_eq.mp hqc) ▸ List.mem_map_of_mem Prod.fst hq
          exact hk ((any_name_iff _ _).mpr h2)
        constructor
        · simp [List.filter_append, hnone]
        · simp [List.filter_append, hnone]

theorem groupPairs_amount_sum (ps : List (String × Int)) :
    ((groupPairs ps).map (fun e => e.amount)).sum = (ps.map Prod.snd).sum := by
  induction ps using List.reverseRecOn with
  | nil => simp [groupPairs]
  | append_singleton ps p ih =>
    rw [groupPairs_snoc]
    unfold addToCategoryMap
    by_cases hk : (groupPairs ps).any (fun e => e.name == p.1)
    · rw [if_pos hk, amount_sum_update _ _ _ (groupPairs_names_nodup ps) hk, ih]
      simp
    · rw [if_neg hk]
      simp [List.map_append, ih]

theorem groupPairs_count_sum (ps : List (String × Int)) :
    ((groupPairs ps).map (fun e => e.count)).sum = ps.length := by
  induction ps using List.reverseRecOn with
  | nil => simp [groupPairs]
  | append_singleton ps p ih =>
    rw [groupPairs_snoc]
    unfold addToCategoryMap
    by_cases hk : (groupPairs ps).any (fun e => e.name == p.1)
    · rw [if_pos hk, count_sum_update _ _ _ (groupPairs_names_nodup ps) hk, ih]
      simp
    · rw [if_neg hk]
      simp [List.map_append, ih]

theorem buildCategoryMap_eq_groupPairs (rows : List StudyCard) :
    buildCategoryMap rows = groupPairs (rows.map (fun c => (catKey c, costOf c))) := by
  unfold buildCategoryMap groupPairs
  rw [List.foldl_map]

theorem providedKey_bearer (k : String) :
    providedKey (some ("Bearer " ++ k)) = some k := by
  simp only [providedKey]
  have hp : (String.toList "Bearer ").isPrefixOf (String.toList ("Bearer " ++ k)) = true := by
    rw [List.isPrefixOf_iff_prefix]
    show "Bearer ".data <+: ("Bearer " ++ k).data
    rw [String.data_append]
    exact List.prefix_append _ _
  rw [if_pos hp]
  congr 1

theorem providedKey_eq_iff (h : Option String) (k : String) :
    providedKey h = some k ↔ h = some ("Bearer " ++ k) := by
  constructor
  · intro hk
    cases h with
    | none => simp [providedKey] at hk
    | some s =>
      simp only [providedKey] at hk
      by_cases hp : (String.toList "Bearer ").isPrefixOf s.toList
      · rw [if_pos hp] at hk
        rcases List.isPrefixOf_iff_prefix.mp hp with ⟨t, ht⟩
        have hdrop : s.toList.drop 7 = t := by
          rw [← ht, show (7 : Nat) = (String.toList "Bearer ").length from rfl,
              List.drop_left]
        rw [hdrop] at hk
        have hk2 : String.mk t = k := Option.some.inj hk
        subst hk2
        congr 1
        apply String.ext
        have ht2 : ("Bearer " : String).data ++ t = s.data := ht
        show s.data = ("Bearer " ++ String.mk t).data
        rw [String.data_append, ← ht2]
      · rw [if_neg hp] at hk
        exact absurd hk (by simp)
  · intro hh
    subst hh
    exact providedKey_bearer k

/-! ## Claim theorems -/

/-- C1: for every set of period rows the aggregator satisfies
totalExpenses = sum of estimatedCost (0 when absent) over all rows,
completedValue = the same sum over the completed rows,
totalRevenue = completedValue, netProfit = totalRevenue - totalExpenses,
cashInflow = completedValue, cashOutflow = totalExpenses,
netCashFlow = cashInflow - cashOutflow; and on the spec's two example rows
under the monthly 2024-03 period, totalExpenses = 150, totalRevenue = 50
and netProfit = -100. -/
theorem C1_aggregator_invariants (rows : List StudyCard) :
    totalExpenses rows = (rows.map costOf).sum
    ∧ completedValue rows = ((completedCards rows).map costOf).sum
    ∧ completedCards rows = rows.filter (fun c => c.isCompleted)
    ∧ totalRevenue rows = completedValue rows
    ∧ netProfit rows = totalRevenue rows - totalExpenses rows
    ∧ cashInflow rows = completedValue rows
    ∧ cashOutflow rows = totalExpenses rows
    ∧ netCashFlow rows = cashInflow rows - cashOutflow rows
    ∧ (buildSummary "monthly" 2024 3 exampleTable).totalExpenses = 150
    ∧ (buildSummary "monthly" 2024 3 exampleTable).totalRevenue = 50
    ∧ (buildSummary "monthly" 2024 3 exampleTable).netProfit = -100 :=
  ⟨totalExpenses_eq_sum rows, completedValue_eq_sum rows, rfl, rfl, rfl, rfl,
   rfl, rfl, by decide, by decide, by decide⟩

/-- C2 counterexample: a row whose category is the empty string is grouped
under the empty string, not under "Uncategorized": the nullish-coalescing
default fires only for a null category, refuting the claim's "null or
empty". -/
theorem C2_counterexample :
    (expenseCategories [⟨some "", some 5, false, ⟨2024, 1, 1, 0, 0, 0⟩⟩]).map
        (fun e => e.name) = [""]
    ∧ (expenseCategories [⟨some "", some 5, false, ⟨2024, 1, 1, 0, 0, 0⟩⟩]).map
        (fun e => e.name) ≠ ["Uncategorized"] := by
  decide

/-- C2 amended: expenseCategories groups ALL rows by category, substituting
"Uncategorized" only when the category is null (an empty-string category is
its own group); entries appear in insertion order of first occurrence, each
carrying the sum of estimatedCost and the row count of its group; the
amounts sum to totalExpenses and the counts sum to the number of period
rows. -/
theorem C2_expense_categories (rows : List StudyCard) :
    (expenseCategories rows).map (fun e => e.name) = firstOccKeys (rows.map catKey)
    ∧ (∀ e ∈ expenseCategories rows,
        e.amount = ((rows.filter (fun c => catKey c == e.name)).map costOf).sum
        ∧ e.count = (rows.filter (fun c => catKey c == e.name)).length)
    ∧ ((expenseCategories rows).map (fun e => e.amount)).sum = totalExpenses rows
    ∧ ((expenseCategories rows).map (fun e => e.count)).sum = rows.length := by
  have hbc : expenseCategories rows
      = groupPairs (rows.map (fun c => (catKey c, costOf c))) :=
    buildCategoryMap_eq_groupPairs rows
  refine ⟨?_, ?_, ?_, ?_⟩
  · rw [hbc, groupPairs_names, List.map_map]
    rfl
  · intro e he
    rw [hbc] at he
    obtain ⟨ha, hc⟩ := groupPairs_entry _ e he
    constructor
    · rw [ha, List.filter_map, List.map_map]
      rfl
    · rw [hc, List.filter_map, List.length_map]
      rfl
  · rw [hbc, groupPairs_amount_sum, List.map_map, totalExpenses_eq_sum]
    rfl
  · rw [hbc, groupPairs_count_sum, List.length_map]

/-- C10: the revenueCategories amounts sum to totalRevenue, its counts sum
to the number of completed rows in the period, and no category name is
repeated in either revenueCategories or expenseCategories. -/
theorem C10_revenue_categories (rows : List StudyCard) :
    ((revenueCategories rows).map (fun e => e.amount)).sum = totalRevenue rows
    ∧ ((revenueCategories rows).map (fun e => e.count)).sum = (completedCards rows).length
    ∧ ((revenueCategories rows).map (fun e => e.name)).Nodup
    ∧ ((expenseCategories rows).map (fun e => e.name)).Nodup := by
  have hbc : revenueCategories rows
      = groupPairs ((completedCards rows).map (fun c => (catKey c, costOf c))) :=
    buildCategoryMap_eq_groupPairs (completedCards rows)
  refine ⟨?_, ?_, ?_, ?_⟩
  · rw [hbc, groupPairs_amount_sum, List.map_map]
    unfold totalRevenue
    rw [completedValue_eq_sum rows]
    rfl
  · rw [hbc, groupPairs_count_sum, List.length_map]
  · rw [hbc]
    exact groupPairs_names_nodup _
  · rw [show expenseCategories rows = buildCategoryMap rows from rfl,
        buildCategoryMap_eq_groupPairs rows]
    exact groupPairs_names_nodup _

/-- C4: for every year and month 1-12, the quarterly branch computes
quarter = ceil(month/3) in 1..4, starts at 00:00:00 of the first day of
month (quarter-1)*3+1, ends at 23:59:59 of the last day of month quarter*3
via the day-0-of-next-month arithmetic, always spanning exactly 3 calendar
months of the same year; month = 2 gives quarter 1, Jan 1 - Mar 31. -/
theorem C4_quarterly_period (year month : Int) (h1 : 1 ≤ month) (h2 : month ≤ 12) :
    1 ≤ ceilDiv month 3 ∧ ceilDiv month 3 ≤ 4
    ∧ (resolvePeriod "quarterly" year month).1
        = ⟨year, (ceilDiv month 3 - 1) * 3 + 1, 1, 0, 0, 0⟩
    ∧ (resolvePeriod "quarterly" year month).2
        = ⟨year, ceilDiv month 3 * 3,
           daysInMonth year (ceilDiv month 3 * 3), 23, 59, 59⟩
    ∧ (resolvePeriod "quarterly" year month).2.month
        - (resolvePeriod "quarterly" year month).1.month = 2
    ∧ (resolvePeriod "quarterly" year month).2.year
        = (resolvePeriod "quarterly" year month).1.year
    ∧ (month = 2 → ceilDiv month 3 = 1
        ∧ resolvePeriod "quarterly" year month
            = (⟨year, 1, 1, 0, 0, 0⟩, ⟨year, 3, 31, 23, 59, 59⟩)) := by
  obtain ⟨hq1, hq2⟩ := ceilDiv_three_bounds month h1 h2
  have hres := resolvePeriod_quarterly year month h1 h2
  refine ⟨hq1, hq2, by rw [hres], by rw [hres], by rw [hres]; simp; ring,
    by rw [hres], ?_⟩
  intro hm2
  subst hm2
  have hq : ceilDiv 2 3 = 1 := by decide
  refine ⟨hq, ?_⟩
  rw [hres, hq]
  norm_num [daysInMonth]

/-- C5: for every valid (periodType, year, month), the resolver returns
periodStart at 00:00:00 of the first day of the period and periodEnd at
23:59:59 of the last day of its month (yearly: Jan 1 - Dec 31; monthly:
first to last day of the month), and periodStart ≤ periodEnd. -/
theorem C5_period_bounds (periodType : String)
    (hpt : periodType = "monthly" ∨ periodType = "quarterly" ∨ periodType = "yearly")
    (year month : Int) (h1 : 1 ≤ month) (h2 : month ≤ 12) :
    (resolvePeriod periodType year month).1.day = 1
    ∧ (resolvePeriod periodType year month).1.hour = 0
    ∧ (resolvePeriod periodType year month).1.minute = 0
    ∧ (resolvePeriod periodType year month).1.second = 0
    ∧ (resolvePeriod periodType year month).2.day
        = daysInMonth (resolvePeriod periodType year month).2.year
            (resolvePeriod periodType year month).2.month
    ∧ (resolvePeriod periodType year month).2.hour = 23
    ∧ (resolvePeriod periodType year month).2.minute = 59
    ∧ (resolvePeriod periodType year month).2.second = 59
    ∧ DateTime.leB (resolvePeriod periodType year month).1
        (resolvePeriod periodType year month).2 = true
    ∧ (periodType = "yearly" →
        resolvePeriod periodType year month
          = (⟨year, 1, 1, 0, 0, 0⟩, ⟨year, 12, 31, 23, 59, 59⟩))
    ∧ (periodType = "monthly" →
        resolvePeriod periodType year month
          = (⟨year, month, 1, 0, 0, 0⟩,
             ⟨year, month, daysInMonth year month, 23, 59, 59⟩)) := by
  rcases hpt with hpt | hpt | hpt <;> subst hpt
  · have hres := resolvePeriod_monthly year month h1 h2
    rw [hres]
    refine ⟨rfl, rfl, rfl, rfl, rfl, rfl, rfl, rfl, ?_,
      fun h => absurd h (by decide), fun _ => rfl⟩
    refine leB_of_fields _ _ rfl (Or.inr ⟨rfl, ?_⟩)
    show (1 : Int) < daysInMonth year month
    have := daysInMonth_ge year month
    omega
  · obtain ⟨hq1, hq2⟩ := ceilDiv_three_bounds month h1 h2
    have hres := resolvePeriod_quarterly year month h1 h2
    rw [hres]
    refine ⟨rfl, rfl, rfl, rfl, rfl, rfl, rfl, rfl, ?_,
      fun h => absurd h (by decide), fun h => absurd h (by decide)⟩
    refine leB_of_fields _ _ rfl (Or.inl ?_)
    show ((ceilDiv month 3 - 1) * 3 + 1 : Int) < ceilDiv month 3 * 3
    omega
  · have hres := resolvePeriod_yearly year month
    rw [hres]
    refine ⟨rfl, rfl, rfl, rfl, ?_, rfl, rfl, rfl, ?_, fun _ => rfl,
      fun h => absurd h (by decide)⟩
    · show (31 : Int) = daysInMonth year 12
      rw [daysInMonth_twelve]
    · refine leB_of_fields _ _ rfl (Or.inl ?_)
      show (1 : Int) < 12
      norm_num

/-- C3: the history builder with requested count N (clamped to at most 24,
default 12) returns exactly min(N,24) summaries; entry 0 is the current
calendar month and entry i covers exactly the calendar month i whole months
before it (year boundaries rolling via the normalization 12*year + month),
resolved to the same interval as the monthly branch of the period
resolver. -/
theorem C3_history_builder (table : List StudyCard) (nowY nowM : Int) (N : Nat)
    (hm0 : 0 ≤ nowM) (hm1 : nowM ≤ 11) :
    (buildHistory table nowY nowM (clampMonths N)).length = min N 24
    ∧ histCount none = 12
    ∧ monthsAgo nowY nowM 0 = (nowY, nowM)
    ∧ (∀ i : Nat, i < min N 24 →
        12 * (monthsAgo nowY nowM i).1 + (monthsAgo nowY nowM i).2
          = 12 * nowY + nowM - i
        ∧ 0 ≤ (monthsAgo nowY nowM i).2 ∧ (monthsAgo nowY nowM i).2 ≤ 11
        ∧ (buildHistory table nowY nowM (clampMonths N))[i]?
            = some (buildMonthSummary table (monthsAgo nowY nowM i).1
                (monthsAgo nowY nowM i).2)
        ∧ (buildMonthSummary table (monthsAgo nowY nowM i).1
              (monthsAgo nowY nowM i).2).periodStart
            = (resolvePeriod "monthly" (monthsAgo nowY nowM i).1
                ((monthsAgo nowY nowM i).2 + 1)).1
        ∧ (buildMonthSummary table (monthsAgo nowY nowM i).1
              (monthsAgo nowY nowM i).2).periodEnd
            = (resolvePeriod "monthly" (monthsAgo nowY nowM i).1
                ((monthsAgo nowY nowM i).2 + 1)).2) := by
  have hlen : clampMonths (N : Int) = min N 24 := by
    unfold clampMonths
    omega
  refine ⟨?_, by decide, ?_, ?_⟩
  · simp [buildHistory, hlen]
  · simp only [monthsAgo, Nat.cast_zero, sub_zero, Prod.mk.injEq]
    constructor <;> omega
  · intro i hi
    refine ⟨?_, ?_, ?_, ?_, ?_, ?_⟩
    · simp only [monthsAgo]
      omega
    · simp only [monthsAgo]
      omega
    · simp only [monthsAgo]
      omega
    · unfold buildHistory
      rw [List.getElem?_map, List.getElem?_range (by omega : i < clampMonths N)]
      rfl
    · simp only [buildMonthSummary]
      unfold resolvePeriod
      rw [if_neg (by decide : ¬("monthly" = "yearly")),
          if_neg (by decide : ¬("monthly" = "quarterly"))]
      simp [add_sub_cancel_right]
    · simp only [buildMonthSummary]
      unfold resolvePeriod
      rw [if_neg (by decide : ¬("monthly" = "yearly")),
          if_neg (by decide : ¬("monthly" = "quarterly"))]

/-- C6: metadata.completionRate is computed from the whole-table counts,
independent of the requested period: it is 0 for an empty table and
otherwise round(100 * totalCompleted / totalItems), an integer in
[0,100]. -/
theorem C6_completion_rate (periodType : String) (year month : Int)
    (table : List StudyCard) :
    (buildSummary periodType year month table).totalItems = table.length
    ∧ (buildSummary periodType year month table).totalCompleted
        = (table.filter (fun c => c.isCompleted)).length
    ∧ (buildSummary periodType year month table).completionRate
        = completionRateOfTable table
    ∧ (table.length = 0 →
        (buildSummary periodType year month table).completionRate = 0)
    ∧ 0 ≤ (buildSummary periodType year month table).completionRate
    ∧ (buildSummary periodType year month table).completionRate ≤ 100
    ∧ (0 < table.length →
        (buildSummary periodType year month table).completionRate
          = round ((100 * ((table.filter (fun c => c.isCompleted)).length : ℚ))
              / (table.length : ℚ))) := by
  have hproj : (buildSummary periodType year month table).completionRate
      = completionRateOfTable table := rfl
  have htcle : (table.filter (fun c => c.isCompleted)).length ≤ table.length :=
    List.length_filter_le _ _
  refine ⟨rfl, rfl, hproj, ?_, ?_, ?_, ?_⟩
  · intro h0
    rw [hproj]
    unfold completionRateOfTable completionRate
    simp [h0]
  · rw [hproj]
    unfold completionRateOfTable completionRate
    by_cases hpos : 0 < table.length
    · rw [if_pos hpos, round_eq]
      refine Int.le_floor.mpr ?_
      push_cast
      positivity
    · rw [if_neg hpos]
  · rw [hproj]
    unfold completionRateOfTable completionRate
    by_cases hpos : 0 < table.length
    · rw [if_pos hpos, round_eq]
      have hti : (0 : ℚ) < (table.length : ℚ) := by exact_mod_cast hpos
      have hdiv : ((table.filter (fun c => c.isCompleted)).length : ℚ)
          / (table.length : ℚ) ≤ 1 := by
        rw [div_le_one hti]
        exact_mod_cast htcle
      have hq : ((table.filter (fun c => c.isCompleted)).length : ℚ)
          / (table.length : ℚ) * 100 + 1 / 2 ≤ 100 + 1 / 2 := by nlinarith
      calc ⌊((table.filter (fun c => c.isCompleted)).length : ℚ)
              / (table.length : ℚ) * 100 + 1 / 2⌋
          ≤ ⌊(100 : ℚ) + 1 / 2⌋ := Int.floor_le_floor hq
        _ = 100 := by norm_num
    · rw [if_neg hpos]
      norm_num
  · intro hpos
    rw [hproj]
    unfold completionRateOfTable completionRate
    rw [if_pos hpos]
    congr 1
    ring

/-- C7: on both endpoints, with a configured (nonempty) key every request
whose Authorization header does not supply exactly "Bearer " followed by the
key receives the one fixed 401 message, with no distinction between missing,
malformed and wrong-key headers; with no key configured the check is skipped
and the same request reaches a 200. -/
theorem C7_authentication (key : String) (hkey : key ≠ "") (header : Option String)
    (hbad : providedKey header ≠ some key) (periodType : String) (year month : Int)
    (table : List StudyCard) (monthsParam : Option String) (nowY nowM : Int) :
    reportEndpoint (some key) header periodType year month table
      = ApiResult.unauthorized "Unauthorized. Invalid or missing API key."
    ∧ historyEndpoint (some key) header monthsParam table nowY nowM
      = ApiResult.unauthorized "Unauthorized. Invalid or missing API key."
    ∧ statusOf (reportEndpoint (some key) header periodType year month table) = 401
    ∧ statusOf (historyEndpoint (some key) header monthsParam table nowY nowM) = 401
    ∧ (∀ (h2 : Option String) (k2 : String),
        providedKey h2 = some k2 ↔ h2 = some ("Bearer " ++ k2))
    ∧ (∀ h2 : Option String,
        statusOf (reportEndpoint none h2 periodType year month table) = 200
        ∧ statusOf (historyEndpoint none h2 monthsParam table nowY nowM) = 200) := by
  have hcond : (some key).getD "" ≠ "" ∧ providedKey header ≠ some ((some key).getD "") :=
    ⟨hkey, hbad⟩
  have hrep : reportEndpoint (some key) header periodType year month table
      = ApiResult.unauthorized "Unauthorized. Invalid or missing API key." := by
    unfold reportEndpoint
    rw [if_pos hcond]
  have hhist : historyEndpoint (some key) header monthsParam table nowY nowM
      = ApiResult.unauthorized "Unauthorized. Invalid or missing API key." := by
    unfold historyEndpoint
    rw [if_pos hcond]
  refine ⟨hrep, hhist, by rw [hrep]; rfl, by rw [hhist]; rfl, providedKey_eq_iff, ?_⟩
  intro h2
  constructor
  · unfold reportEndpoint
    rw [if_neg (by simp)]
    rfl
  · unfold historyEndpoint
    rw [if_neg (by simp)]
    rfl

/-- C8 counterexample: with months = "abc" (present but unparsable) the
history endpoint returns an empty summaries list, not the 12 summaries the
absent-parameter default produces, so it does not behave as if the default
had been supplied. -/
theorem C8_counterexample :
    parseIntJS "abc" = none
    ∧ historyEndpoint none none (some "abc") [] 2025 9 = ApiResult.ok []
    ∧ historyBodyLength (historyEndpoint none none (some "abc") [] 2025 9) = 0
    ∧ historyBodyLength (historyEndpoint none none none [] 2025 9) = 12
    ∧ historyEndpoint none none (some "abc") [] 2025 9
        ≠ historyEndpoint none none none [] 2025 9 := by
  decide

/-- C8 amended: malformed numeric parameters never produce a 400 — the
history endpoint answers 200 for every months value — but the defaults
apply only when the parameter is absent: a present-but-unparsable months
parses to NaN, the loop runs zero times and the summaries list is empty
(while the absent default yields 12 summaries), and a
present-but-unparsable year likewise parses to NaN instead of the current
year. -/
theorem C8_malformed_params (s : String) (hs : parseIntJS s = none)
    (table : List StudyCard) (nowY nowM : Int) (cy : Int) :
    histCount (some s) = 0
    ∧ historyEndpoint none none (some s) table nowY nowM = ApiResult.ok []
    ∧ statusOf (historyEndpoint none none (some s) table nowY nowM) = 200
    ∧ (∀ p : Option String, statusOf (historyEndpoint none none p table nowY nowM) = 200)
    ∧ histCount none = 12
    ∧ historyBodyLength (historyEndpoint none none none table nowY nowM) = 12
    ∧ yearFromParam (some s) cy = none := by
  have h0 : histCount (some s) = 0 := by
    unfold histCount
    rw [show (some s).getD "12" = s from rfl, hs]
    rfl
  have h12 : histCount none = 12 := by decide
  refine ⟨h0, ?_, ?_, ?_, h12, ?_, ?_⟩
  · unfold historyEndpoint
    rw [if_neg (by simp), h0]
    rfl
  · unfold historyEndpoint
    rw [if_neg (by simp)]
    rfl
  · intro p
    unfold historyEndpoint
    rw [if_neg (by simp)]
    rfl
  · unfold historyEndpoint
    rw [if_neg (by simp), h12]
    simp [historyBodyLength, buildHistory]
  · unfold yearFromParam
    rw [show (some s).getD (toString cy) = s from rfl, hs]

/-- C9: when every present estimatedCost is non-negative, the completed
rows being a sublist of all rows forces completedValue ≤ totalExpenses,
hence netProfit ≤ 0 and netCashFlow ≤ 0: the model never reports a
positive profit. -/
theorem C9_never_positive_profit (rows : List StudyCard)
    (h : ∀ c ∈ rows, c.estimatedCost.all (fun v => decide (0 ≤ v)) = true) :
    completedValue rows ≤ totalExpenses rows
    ∧ netProfit rows ≤ 0 ∧ netCashFlow rows ≤ 0 := by
  have hc : ∀ c ∈ rows, 0 ≤ costOf c := by
    intro c hcm
    have hall := h c hcm
    cases hco : c.estimatedCost with
    | none => simp [costOf, hco]
    | some v =>
      rw [hco] at hall
      simp only [Option.all_some, decide_eq_true_eq] at hall
      simpa [costOf, hco] using hall
  have hle : completedValue rows ≤ totalExpenses rows := by
    rw [totalExpenses_eq_sum, completedValue_eq_sum]
    exact sum_map_filter_le rows (fun c => c.isCompleted) hc
  refine ⟨hle, ?_, ?_⟩
  · unfold netProfit totalRevenue
    omega
  · unfold netCashFlow cashInflow cashOutflow
    omega

/-- C9 witness: the hypothesis and conclusion at the spec's example rows. -/
theorem C9_witness :
    (∀ c ∈ exampleTable, c.estimatedCost.all (fun v => decide (0 ≤ v)) = true)
    ∧ (completedValue exampleTable ≤ totalExpenses exampleTable
       ∧ netProfit exampleTable ≤ 0 ∧ netCashFlow exampleTable ≤ 0) :=
  ⟨by decide, C9_never_positive_profit exampleTable (by decide)⟩

/-- C2 witness: the amended grouping facts at the spec's example rows. -/
theorem C2_witness :
    (expenseCategories exampleTable).map (fun e => e.name)
      = firstOccKeys (exampleTable.map catKey)
    ∧ (∀ e ∈ expenseCategories exampleTable,
        e.amount = ((exampleTable.filter (fun c => catKey c == e.name)).map costOf).sum
        ∧ e.count = (exampleTable.filter (fun c => catKey c == e.name)).length)
    ∧ ((expenseCategories exampleTable).map (fun e => e.amount)).sum
        = totalExpenses exampleTable
    ∧ ((expenseCategories exampleTable).map (fun e => e.count)).sum
        = exampleTable.length :=
  C2_expense_categories exampleTable

/-- C3 witness: three requested months from September (0-based month 8)
yield exactly three summaries. -/
theorem C3_witness :
    ((0 : Int) ≤ 8 ∧ (8 : Int) ≤ 11)
    ∧ (buildHistory [] 2024 8 (clampMonths 3)).length = min 3 24 :=
  ⟨⟨by decide, by decide⟩, (C3_history_builder [] 2024 8 3 (by decide) (by decide)).1⟩

/-- C4 witness: month 2 of 2024 resolves to quarter 1, Jan 1 - Mar 31. -/
theorem C4_witness :
    ((1 : Int) ≤ 2 ∧ (2 : Int) ≤ 12)
    ∧ ceilDiv 2 3 = 1
    ∧ resolvePeriod "quarterly" 2024 2
        = (⟨2024, 1, 1, 0, 0, 0⟩, ⟨2024, 3, 31, 23, 59, 59⟩) :=
  ⟨⟨by decide, by decide⟩,
   (C4_quarterly_period 2024 2 (by decide) (by decide)).2.2.2.2.2.2 rfl⟩

/-- C5 witness: the monthly period for February 2024 starts on day 1 and
its start does not exceed its end. -/
theorem C5_witness :
    ("monthly" = "monthly" ∨ "monthly" = "quarterly" ∨ "monthly" = "yearly")
    ∧ ((1 : Int) ≤ 2 ∧ (2 : Int) ≤ 12)
    ∧ (resolvePeriod "monthly" 2024 2).1.day = 1
    ∧ DateTime.leB (resolvePeriod "monthly" 2024 2).1
        (resolvePeriod "monthly" 2024 2).2 = true :=
  ⟨Or.inl rfl, ⟨by decide, by decide⟩,
   (C5_period_bounds "monthly" (Or.inl rfl) 2024 2 (by decide) (by decide)).1,
   (C5_period_bounds "monthly" (Or.inl rfl) 2024 2 (by decide)
     (by decide)).2.2.2.2.2.2.2.2.1⟩

/-- C6 witness: on the example table (1 completed of 2 rows) the reported
rate is the whole-table rate and equals the rounded percentage. -/
theorem C6_witness :
    (buildSummary "monthly" 2024 3 exampleTable).completionRate
      = completionRateOfTable exampleTable
    ∧ (0 < exampleTable.length
        ∧ (buildSummary "monthly" 2024 3 exampleTable).completionRate
            = round ((100 * ((exampleTable.filter (fun c => c.isCompleted)).length : ℚ))
                / (exampleTable.length : ℚ))) :=
  ⟨(C6_completion_rate "monthly" 2024 3 exampleTable).2.2.1,
   by decide,
   (C6_completion_rate "monthly" 2024 3 exampleTable).2.2.2.2.2.2 (by decide)⟩

/-- C7 witness: with key "k1" configured, a header carrying the wrong key
gets the fixed 401 on both endpoints. -/
theorem C7_witness :
    ("k1" ≠ "" ∧ providedKey (some "Bearer nope") ≠ some "k1")
    ∧ reportEndpoint (some "k1") (some "Bearer nope") "monthly" 2024 3 []
        = ApiResult.unauthorized "Unauthorized. Invalid or missing API key."
    ∧ statusOf (historyEndpoint (some "k1") (some "Bearer nope") none [] 2024 0) = 401 :=
  ⟨⟨by decide, by decide⟩,
   (C7_authentication "k1" (by decide) (some "Bearer nope") (by decide)
     "monthly" 2024 3 [] none 2024 0).1,
   (C7_authentication "k1" (by decide) (some "Bearer nope") (by decide)
     "monthly" 2024 3 [] none 2024 0).2.2.2.1⟩

/-- C8 witness: months = "abc" parses to NaN, giving zero summaries, while
the absent-parameter default gives 12. -/
theorem C8_witness :
    parseIntJS "abc" = none
    ∧ histCount (some "abc") = 0
    ∧ historyEndpoint none none (some "abc") exampleTable 2025 9 = ApiResult.ok []
    ∧ historyBodyLength (historyEndpoint none none none exampleTable 2025 9) = 12 :=
  ⟨by decide,
   (C8_malformed_params "abc" (by decide) exampleTable 2025 9 2025).1,
   (C8_malformed_params "abc" (by decide) exampleTable 2025 9 2025).2.1,
   (C8_malformed_params "abc" (by decide) exampleTable 2025 9 2025).2.2.2.2.2.1⟩

end VLHoldings
